import Mathlib

/-!
Verification of the RAG chat backend (approaches/chatapproach.py,
approaches/chatreadretrieveread.py, approaches/retrievethenread.py).

The Python code is shallowly embedded: message lists become `List Message`,
the streaming reassembler becomes a fold over content fragments, and the
per-request override mapping becomes a structure of optional fields.
-/

/-- A chat message: role plus textual content
(the `ChatCompletionMessageParam` dicts of the source). -/
structure Message where
  role : String
  content : String
deriving DecidableEq, Repr

/-- Modelled from the spec: `MessageBuilder.insert_message` of
core/messagebuilder.py is not under src; the spec (section 4.1) says the
builder keeps an ordered message list and inserts a candidate at a given
position (Python `list.insert`, which clamps a past-the-end index to an
append). -/
def insIdx {α : Type} : Nat → α → List α → List α
  | 0, x, l => x :: l
  | _ + 1, x, [] => [x]
  | n + 1, x, a :: l => a :: insIdx n x l

/-- The history-truncation loop of
`ChatReadRetrieveReadApproach.get_messages_from_history` (lines 349-357):
walk candidates newest-to-oldest, stop at the first candidate that would push
`total_token_count` past `max_tokens`, otherwise insert it at `append_index`.
The token accountant (`count_tokens_for_message`, core/modelhelper.py, not
under src) is the parameter `cost` — per the spec a pure, model-dependent
function of a message. -/
def historyLoop (cost : Message → Nat) (max_tokens append_index : Nat) :
    List Message → Nat → List Message → List Message
  | [], _, msgs => msgs
  | m :: rest, total, msgs =>
      if total + cost m > max_tokens then msgs
      else historyLoop cost max_tokens append_index rest (total + cost m) (insIdx append_index m msgs)

/-- `ChatReadRetrieveReadApproach.get_messages_from_history`
(chatreadretrieveread.py lines 329-357): system message, few-shots inserted
at index 1 in reversed order, the new user content at `append_index`,
then as much history as fits. -/
def get_messages_from_history (cost : Message → Nat) (system_prompt : String)
    (history : List Message) (user_content : String) (max_tokens : Nat)
    (few_shots : List Message) : List Message :=
  let init : List Message := [⟨"system", system_prompt⟩]
  let withShots := few_shots.reverse.foldl (fun msgs shot => insIdx 1 shot msgs) init
  let append_index := few_shots.length + 1
  let withUser := insIdx append_index ⟨"user", user_content⟩ withShots
  let total_token_count := cost (withUser.getLastD ⟨"user", user_content⟩)
  historyLoop cost max_tokens append_index history.dropLast.reverse total_token_count withUser

/-- The history messages the loop accepts, in the (newest-first) order it
visits them; a specification-side companion of `historyLoop`. -/
def takenHistory (cost : Message → Nat) (max_tokens : Nat) :
    List Message → Nat → List Message
  | [], _ => []
  | m :: rest, total =>
      if total + cost m > max_tokens then []
      else m :: takenHistory cost max_tokens rest (total + cost m)

/-- The history slice that ends up in the built prompt, in chronological
order. -/
def includedHistory (cost : Message → Nat) (max_tokens : Nat)
    (history : List Message) (user_cost : Nat) : List Message :=
  (takenHistory cost max_tokens history.dropLast.reverse user_cost).reverse

/-- Total estimated token cost of a message list under the accountant
`cost`. -/
def sumCost (cost : Message → Nat) (l : List Message) : Nat :=
  (l.map cost).sum

/-- A concrete instance of the token accountant used for concrete
evaluations: cost of a message is the length of its content. -/
def lenCost (m : Message) : Nat := m.content.length

/-! ## Streaming reassembler (`ChatApproach.run_with_streaming`,
chatapproach.py lines 114-137; the same logic is inlined in
`ChatReadRetrieveReadApproach.run_with_streaming`, chatreadretrieveread.py
lines 283-313). Fragment contents are modelled as `List Char`. -/

/-- Python `"<<" in content`. -/
def containsLtLt : List Char → Bool
  | '<' :: '<' :: _ => true
  | _ :: rest => containsLtLt rest
  | [] => false

/-- Python `content[: content.index("<<")]` (the whole string when the
marker is absent; also `content.split("<<")[0]`). -/
def beforeLtLt : List Char → List Char
  | '<' :: '<' :: _ => []
  | c :: rest => c :: beforeLtLt rest
  | [] => []

/-- Python `content[content.index("<<") :]` (empty when the marker is
absent). -/
def fromLtLt : List Char → List Char
  | '<' :: '<' :: rest => '<' :: ('<' :: rest)
  | _ :: rest => fromLtLt rest
  | [] => []

/-- Whether the fragment starts with the two-character marker. -/
def beginsWithLtLt : List Char → Bool
  | '<' :: '<' :: _ => true
  | _ => false

/-- Scanner for `re.findall(r"<<([^>>]+)>>", content)`, structurally
recursive on a fuel argument: at each position try to match `<<`, then a
maximal nonempty run of characters other than `>`, then `>>`; on success
emit the run and continue after the match, on failure advance one
character. Every step consumes at least one character, so any fuel at
least the input length gives the full scan. -/
def findQuestionsAux : Nat → List Char → List (List Char)
  | 0, _ => []
  | fuel + 1, l =>
      match l with
      | [] => []
      | '<' :: '<' :: rest =>
          match rest.dropWhile (fun c => c != '>') with
          | '>' :: '>' :: rest3 =>
              let q := rest.takeWhile (fun c => c != '>')
              if q.isEmpty then findQuestionsAux fuel ('<' :: rest)
              else q :: findQuestionsAux fuel rest3
          | _ => findQuestionsAux fuel ('<' :: rest)
      | _ :: rest => findQuestionsAux fuel rest

/-- Python `re.findall(r"<<([^>>]+)>>", content)`. -/
def findQuestions (content : List Char) : List (List Char) :=
  findQuestionsAux content.length content

/-- `ChatApproach.extract_followup_questions` (chatapproach.py line 78-79):
the content before the first `<<`, and every `<<...>>`-delimited group. -/
def extract_followup_questions (content : List Char) : List Char × List (List Char) :=
  (beforeLtLt content, findQuestions content)

/-- State carried across streamed fragments: whether the follow-up block
has started (`followup_questions_started`), the follow-up buffer
(`followup_content`), and the concatenation of all content forwarded to the
caller so far. -/
structure StreamState where
  started : Bool
  buffer : List Char
  visible : List Char
deriving DecidableEq, Repr

/-- One iteration of the `async for` loop of `run_with_streaming`
(chatapproach.py lines 116-134) on a fragment's content. -/
def streamStep (suggest : Bool) (st : StreamState) (content : List Char) : StreamState :=
  if suggest && containsLtLt content then
    ⟨true, st.buffer ++ fromLtLt content, st.visible ++ beforeLtLt content⟩
  else if st.started then
    ⟨st.started, st.buffer ++ content, st.visible⟩
  else
    ⟨st.started, st.buffer, st.visible ++ content⟩

/-- The whole streaming loop over a fragment list, from the initial state. -/
def run_with_streaming (suggest : Bool) (fragments : List (List Char)) : StreamState :=
  fragments.foldl (streamStep suggest) ⟨false, [], []⟩

/-- The final event (chatapproach.py lines 135-137): emitted only when the
follow-up buffer is non-empty, carrying the extracted follow-up list. -/
def finalFollowups (st : StreamState) : Option (List (List Char)) :=
  if st.buffer.isEmpty then none else some (extract_followup_questions st.buffer).2

/-- The concatenation `"answer text<<Q1>><<Q2>>"` of claims C2/C3. -/
def target : List Char := "answer text<<Q1>><<Q2>>".data

/-- The reassembler state after the first `n` characters of `target` have
arrived (only meaningful for `n ≠ 12`, i.e. when no fragment boundary has
split the first marker). -/
def stateAt (n : Nat) : StreamState :=
  if n ≤ 11 then ⟨false, [], target.take n⟩
  else ⟨true, (target.drop 11).take (n - 11), target.take 11⟩

/-- Fragmentation side conditions for the amended claim C2, checked with
`n` the offset of the current fragment inside the concatenation: no
fragment may end at offset 12 (that would split the first `<<`), and a
fragment starting after the first marker that contains `<<` must begin
with it. -/
def goodFragsB : Nat → List (List Char) → Bool
  | _, [] => true
  | n, f :: rest =>
      decide (n + f.length ≠ 12) &&
      (decide (n < 13) || !containsLtLt f || beginsWithLtLt f) &&
      goodFragsB (n + f.length) rest

/-! ## Query-rewrite extraction
(`ChatReadRetrieveReadApproach.get_search_query`,
chatreadretrieveread.py lines 359-370). -/

/-- The sentinel meaning "no searchable query could be derived". -/
def NO_RESPONSE : String := "0"

/-- Python `str.strip()`: remove leading and trailing whitespace. -/
def pyStrip (s : String) : String :=
  ⟨((s.data.dropWhile Char.isWhitespace).reverse.dropWhile Char.isWhitespace).reverse⟩

/-- The completion response's `function_call` member, with its JSON
`arguments` payload already parsed: `search_query` is the value of
`arg.get("search_query", ...)` when present. -/
structure FunctionCallPayload where
  name : String
  search_query : Option String
deriving DecidableEq, Repr

/-- The first choice's message of the query-rewrite completion response. -/
structure ResponseMessage where
  function_call : Option FunctionCallPayload
  content : Option String
deriving DecidableEq, Repr

/-- `ChatReadRetrieveReadApproach.get_search_query`: prefer a
`search_sources` function call's `search_query` argument unless it is the
sentinel, else non-empty plain content unless it strips to the sentinel,
else the original user query. An explicitly present `content` key holding
the empty string is falsy in Python, hence treated like a missing one. -/
def get_search_query (msg : ResponseMessage) (user_query : String) : String :=
  match msg.function_call with
  | some fc =>
      if fc.name = "search_sources" then
        let search_query := fc.search_query.getD NO_RESPONSE
        if search_query ≠ NO_RESPONSE then search_query else user_query
      else user_query
  | none =>
      match msg.content with
      | some query_text =>
          if query_text ≠ "" then
            if pyStrip query_text ≠ NO_RESPONSE then query_text else user_query
          else user_query
      | none => user_query

/-! ## System prompt assembly (`ChatApproach.get_system_prompt`,
chatapproach.py lines 48-58, with the concrete template of
`ChatReadRetrieveReadApproach.system_message_chat_conversation`,
chatreadretrieveread.py lines 30-37; the identical inline branching is at
lines 200-210). -/

/-- The default answer-generation template, with its two `str.format`
slots applied (`follow_up_questions_prompt` and `injected_prompt`). -/
def system_message_chat_conversation
    (follow_up_questions_prompt injected_prompt : String) : String :=
  "\n    助手帮助公司员工或人力资源经理解答有关劳动法律法规的问题。请简洁回答问题。\n仅使用以下来源中列出的事实进行回答。如果以下信息不足，请说明不知道。请勿使用以下来源之外的信息生成答案。如有需要，请向用户提出澄清问题。\n对于表格信息，请以HTML表格的形式返回。不要使用Markdown格式。如果问题不是英文，请用问题中使用的语言回答。\n在每个您在回答中引用的事实后面都要注明来源名称。用方括号表示来源，例如[info1.txt]。不要合并来源，分别列出每个来源，例如[info1.txt][info2.pdf]。\n"
    ++ follow_up_questions_prompt ++ "\n" ++ injected_prompt ++ "\n"

/-- The format placeholder substituted in a caller-supplied replacement
template. -/
def followupPlaceholder : List Char := "{follow_up_questions_prompt}".data

/-- `str.format(follow_up_questions_prompt=...)` on an arbitrary template:
replace each placeholder occurrence, left to right, structurally recursive
on fuel (any fuel at least the input length completes the scan). -/
def replaceFollowAux (repl : List Char) : Nat → List Char → List Char
  | 0, l => l
  | fuel + 1, l =>
      match l with
      | [] => []
      | c :: rest =>
          if followupPlaceholder.isPrefixOf (c :: rest) then
            repl ++ replaceFollowAux repl fuel (rest.drop (followupPlaceholder.length - 1))
          else c :: replaceFollowAux repl fuel rest

/-- Python `template.format(follow_up_questions_prompt=follow)`. -/
def formatFollow (template follow : String) : String :=
  ⟨replaceFollowAux follow.data template.data.length template.data⟩

/-- Python `override_prompt.startswith(">>>")`, at the character level. -/
def startsWithTripleGt (p : String) : Bool :=
  match p.data with
  | '>' :: '>' :: '>' :: _ => true
  | _ => false

/-- Python `override_prompt[3:]`, at the character level (Python slices by
code point). -/
def dropThreeChars (p : String) : String :=
  ⟨p.data.drop 3⟩

/-- `ChatApproach.get_system_prompt`: absent override → default template
with an empty injected-prompt slot; `>>>`-prefixed override → default
template with the remainder plus a newline spliced into the
injected-prompt slot; anything else → full replacement template with the
follow-up slot substituted. -/
def get_system_prompt (override_prompt : Option String)
    (follow_up_questions_prompt : String) : String :=
  match override_prompt with
  | none => system_message_chat_conversation follow_up_questions_prompt ""
  | some p =>
      if startsWithTripleGt p then
        system_message_chat_conversation follow_up_questions_prompt (dropThreeChars p ++ "\n")
      else formatFollow p follow_up_questions_prompt

/-- Claim C8's reading of the override protocol, literally as stated: the
`>>>` branch splices `P` minus its first three characters, with no
trailing newline. -/
def claimedSystemPromptC8 (override_prompt : Option String) (f : String) : String :=
  match override_prompt with
  | none => system_message_chat_conversation f ""
  | some p =>
      if startsWithTripleGt p then system_message_chat_conversation f (dropThreeChars p)
      else formatFollow p f

/-- The override protocol as the code implements it: the `>>>` branch
splices `P` minus its first three characters followed by a newline. -/
def amendedSystemPromptC8 (override_prompt : Option String) (f : String) : String :=
  match override_prompt with
  | none => system_message_chat_conversation f ""
  | some p =>
      if startsWithTripleGt p then system_message_chat_conversation f (dropThreeChars p ++ "\n")
      else formatFollow p f

/-! ## Per-request override mapping (section 3 of the spec; read by
`overrides.get(...)` throughout the source). An absent key and an
explicitly `None` value are both `none` (Python `dict.get` returns `None`
for both). -/

structure Overrides where
  retrieval_mode : Option String
  semantic_ranker : Bool
  semantic_captions : Bool
  top : Option Nat
  temperature : Option ℚ
  prompt_template : Option String
  suggest_followup_questions : Bool
deriving DecidableEq, Repr

/-- `overrides.get("retrieval_mode") in ["text", "hybrid", None]`
(chatreadretrieveread.py line 96). -/
def hasText (o : Overrides) : Bool :=
  o.retrieval_mode == some "text" || o.retrieval_mode == some "hybrid" ||
    o.retrieval_mode == none

/-- `overrides.get("retrieval_mode") in ["vectors", "hybrid", None]`
(chatreadretrieveread.py line 97). -/
def hasVector (o : Overrides) : Bool :=
  o.retrieval_mode == some "vectors" || o.retrieval_mode == some "hybrid" ||
    o.retrieval_mode == none

/-- The parameters handed to `search_client.search`
(chatreadretrieveread.py lines 161-183); `α` is the embedding-vector type
of the external embedding API. -/
structure SearchParams (α : Type) where
  query_text : Option String
  search_filter : Option String
  semantic_query_type : Bool
  top : Nat
  query_caption : Option String
  vector : Option α
  top_k : Option Nat
  vector_fields : Option String
deriving DecidableEq, Repr

/-- The search-call composition of
`ChatReadRetrieveReadApproach.run_until_final_call` (lines 96-183): compute
an embedding only when the retrieval mode includes vectors, drop the text
query unless the mode includes text, and use the semantic query type (with
optional extractive captions) only when requested and text is active. -/
def composeSearchCall {α : Type} (embed : String → α) (o : Overrides)
    (search_filter : Option String) (query_text : String) : SearchParams α :=
  let use_semantic_captions := o.semantic_captions && hasText o
  let top := o.top.getD 3
  let query_vector := if hasVector o then some (embed query_text) else none
  let qt : Option String := if hasText o then some query_text else none
  if o.semantic_ranker && hasText o then
    ⟨qt, search_filter, true, top,
      if use_semantic_captions then some "extractive|highlight-false" else none,
      query_vector,
      if query_vector.isSome then some 50 else none,
      if query_vector.isSome then some "embedding" else none⟩
  else
    ⟨qt, search_filter, false, top, none, query_vector,
      if query_vector.isSome then some 50 else none,
      if query_vector.isSome then some "embedding" else none⟩

/-! ## Input validation before external calls
(`RetrieveThenReadApproach.run`, retrievethenread.py lines 71-107, and the
opening of `ChatReadRetrieveReadApproach.run_until_final_call`, lines
96-142). -/

/-- The content slot of an incoming request message: either text or
structured non-string content. -/
inductive MsgContent
  | text (s : String)
  | parts (n : Nat)
deriving DecidableEq, Repr

/-- An incoming request message. -/
structure ReqMessage where
  role : String
  content : MsgContent
deriving DecidableEq, Repr

/-- Whether the content is a Python `str`. -/
def contentIsString : MsgContent → Bool
  | .text _ => true
  | .parts _ => false

/-- The external collaborator calls this layer can issue. -/
inductive ExtCall
  | embedCall
  | searchCall
  | completionCall
deriving DecidableEq, Repr

/-- The control flow of `RetrieveThenReadApproach.run` with respect to
external calls: the newest message's content is checked to be a string
before anything else; on failure a `ValueError` is raised with no external
call issued, otherwise the embedding (vector modes only), search and
completion calls follow. -/
def runRetrieveThenRead (o : Overrides) (messages : List ReqMessage) :
    List ExtCall × Except String Unit :=
  match (messages.getLastD ⟨"user", .text ""⟩).content with
  | .parts _ => ([], .error "The most recent message content must be a string.")
  | .text _ =>
      ((if hasVector o then [ExtCall.embedCall] else []) ++
        [ExtCall.searchCall, ExtCall.completionCall], .ok ())

/-- The opening of `ChatReadRetrieveReadApproach.run_until_final_call`
(lines 102-142): `"Generate search query for: " + original_user_query` is
evaluated before the step-1 completion call; Python string concatenation
with a non-string right operand raises a `TypeError`, so a non-string
newest content also fails here before any external call. -/
def runUntilFinalCallStep1 (history : List ReqMessage) :
    List ExtCall × Except String String :=
  match (history.getLastD ⟨"user", .text ""⟩).content with
  | .text q => ([ExtCall.completionCall], .ok ("Generate search query for: " ++ q))
  | .parts _ => ([], .error "TypeError: can only concatenate str to str")

/-! ## Temperature selection for the answer-generation completion call. -/

/-- `temperature=overrides.get("temperature") or 0.7`
(chatreadretrieveread.py line 234): Python `or` replaces any falsy value —
a missing key, `None`, or `0.0` — with `0.7`. -/
def finalAnswerTemperature (o : Overrides) : ℚ :=
  match o.temperature with
  | none => 0.7
  | some t => if t = 0 then 0.7 else t

/-- `temperature=overrides.get("temperature", 0.3)`
(retrievethenread.py line 130): the default applies only when the key is
absent; a supplied `0.0` is passed through. -/
def retrieveThenReadTemperature (o : Overrides) : ℚ :=
  o.temperature.getD 0.3

/-! ## Helper lemmas: shape of the built prompt -/

theorem insIdx_length_append {α : Type} (x : α) :
    ∀ (l r : List α), insIdx l.length x (l ++ r) = l ++ x :: r
  | [], _ => rfl
  | a :: l, r => by simp [insIdx, insIdx_length_append x l r]

theorem insIdx_length_self {α : Type} (x : α) :
    ∀ l : List α, insIdx l.length x l = l ++ [x]
  | [] => rfl
  | a :: l => by simp [insIdx, insIdx_length_self x l]

theorem foldr_insIdx_one (sys : Message) (shots tail : List Message) :
    shots.foldr (fun shot msgs => insIdx 1 shot msgs) (sys :: tail) =
      sys :: (shots ++ tail) := by
  induction shots with
  | nil => rfl
  | cons s ss ih => rw [List.foldr_cons, ih]; rfl

theorem withShots_eq (sys : Message) (shots : List Message) :
    shots.reverse.foldl (fun msgs shot => insIdx 1 shot msgs) [sys] = sys :: shots := by
  rw [List.foldl_reverse]
  simpa using foldr_insIdx_one sys shots []

theorem historyLoop_shape (cost : Message → Nat) (maxT : Nat) (sys u : Message)
    (shots : List Message) :
    ∀ (rest : List Message) (total : Nat) (acc : List Message),
      historyLoop cost maxT (shots.length + 1) rest total (sys :: (shots ++ (acc ++ [u]))) =
        sys :: (shots ++ (((takenHistory cost maxT rest total).reverse ++ acc) ++ [u])) := by
  intro rest
  induction rest with
  | nil => intro total acc; simp [historyLoop, takenHistory]
  | cons m rest ih =>
      intro total acc
      by_cases h : total + cost m > maxT
      · simp [historyLoop, takenHistory, h]
      · have hins : insIdx (shots.length + 1) m (sys :: (shots ++ (acc ++ [u]))) =
            sys :: (shots ++ ((m :: acc) ++ [u])) := by
          show sys :: insIdx shots.length m (shots ++ (acc ++ [u])) = _
          rw [insIdx_length_append]
          simp
        simp only [historyLoop, if_neg h, hins, takenHistory]
        rw [ih (total + cost m) (m :: acc)]
        simp

theorem gmfh_shape (cost : Message → Nat) (system_prompt : String)
    (history : List Message) (user_content : String) (max_tokens : Nat)
    (few_shots : List Message) :
    get_messages_from_history cost system_prompt history user_content max_tokens few_shots =
      ⟨"system", system_prompt⟩ ::
        (few_shots ++
          (includedHistory cost max_tokens history (cost ⟨"user", user_content⟩) ++
            [⟨"user", user_content⟩])) := by
  simp only [get_messages_from_history]
  rw [withShots_eq]
  have hu : insIdx (few_shots.length + 1) (⟨"user", user_content⟩ : Message)
      (⟨"system", system_prompt⟩ :: few_shots) =
      ⟨"system", system_prompt⟩ :: (few_shots ++ [⟨"user", user_content⟩]) := by
    show (⟨"system", system_prompt⟩ : Message) ::
        insIdx few_shots.length ⟨"user", user_content⟩ few_shots = _
    rw [insIdx_length_self]
  rw [hu]
  have hl : (⟨"system", system_prompt⟩ :: (few_shots ++ [⟨"user", user_content⟩])).getLastD
      (⟨"user", user_content⟩ : Message) = ⟨"user", user_content⟩ := by
    have : (⟨"system", system_prompt⟩ : Message) :: (few_shots ++ [⟨"user", user_content⟩]) =
        (⟨"system", system_prompt⟩ :: few_shots) ++ [⟨"user", user_content⟩] := by simp
    rw [this, List.getLastD_concat]
  rw [hl]
  have := historyLoop_shape cost max_tokens ⟨"system", system_prompt⟩
    ⟨"user", user_content⟩ few_shots history.dropLast.reverse
    (cost ⟨"user", user_content⟩) []
  simp only [List.nil_append] at this
  rw [this]
  simp [includedHistory]

theorem takenHistory_budget (cost : Message → Nat) (maxT : Nat) :
    ∀ (l : List Message) (total : Nat), total ≤ maxT →
      total + sumCost cost (takenHistory cost maxT l total) ≤ maxT := by
  intro l
  induction l with
  | nil => intro total h; simpa [takenHistory, sumCost]
  | cons m rest ih =>
      intro total h
      by_cases hc : total + cost m > maxT
      · simpa [takenHistory, hc, sumCost]
      · have hr := ih (total + cost m) (by omega)
        simp only [takenHistory, if_neg hc, sumCost, List.map_cons, List.sum_cons] at hr ⊢
        omega

theorem takenHistory_nil_of_gt (cost : Message → Nat) (maxT : Nat)
    (l : List Message) (total : Nat) (h : total > maxT) :
    takenHistory cost maxT l total = [] := by
  cases l with
  | nil => rfl
  | cons m rest =>
      have hc : total + cost m > maxT := by omega
      simp [takenHistory, hc]

theorem takenHistory_take_form (cost : Message → Nat) (maxT : Nat) :
    ∀ (l : List Message) (total : Nat),
      ∃ k, takenHistory cost maxT l total = l.take k := by
  intro l
  induction l with
  | nil => exact fun _ => ⟨0, rfl⟩
  | cons m rest ih =>
      intro total
      by_cases hc : total + cost m > maxT
      · exact ⟨0, by simp [takenHistory, hc]⟩
      · obtain ⟨k, hk⟩ := ih (total + cost m)
        exact ⟨k + 1, by simp [takenHistory, hc, hk]⟩

/-- C1 (amended): the budget tracked by `get_messages_from_history` covers
only the new-user-content message and the admitted history, so whenever the
new user content alone fits the budget, the total estimated cost of the
returned list is at most the budget plus the (uncounted) cost of the
system message and few-shot examples. -/
theorem C1_theorem (cost : Message → Nat) (system_prompt : String)
    (history : List Message) (user_content : String) (B : Nat)
    (few_shots : List Message)
    (h : cost ⟨"user", user_content⟩ ≤ B) :
    sumCost cost (get_messages_from_history cost system_prompt history user_content B few_shots) ≤
      cost ⟨"system", system_prompt⟩ + sumCost cost few_shots + B := by
  rw [gmfh_shape]
  have hb := takenHistory_budget cost B history.dropLast.reverse
    (cost ⟨"user", user_content⟩) h
  simp only [sumCost, includedHistory, List.map_cons, List.sum_cons, List.map_append,
    List.sum_append, List.map_reverse, List.sum_reverse, List.map_nil, List.sum_nil] at hb ⊢
  omega

/-- Witness for C1_theorem at a concrete input. -/
theorem C1_witness :
    lenCost ⟨"user", "uu"⟩ ≤ 6 ∧
    sumCost lenCost
        (get_messages_from_history lenCost "ssss" [⟨"user", "aaaa"⟩, ⟨"user", "q"⟩] "uu" 6 []) ≤
      lenCost ⟨"system", "ssss"⟩ + sumCost lenCost [] + 6 :=
  ⟨by decide,
    C1_theorem lenCost "ssss" [⟨"user", "aaaa"⟩, ⟨"user", "q"⟩] "uu" 6 [] (by decide)⟩

/-- C1 as stated is false: with cost = content length, budget 6 equals the
cost of system ("ssss") + few-shots (none) + new user content ("uu"), yet
the returned list costs 10, because the builder never counts the system
message against the budget. -/
theorem C1_counterexample :
    lenCost ⟨"system", "ssss"⟩ + sumCost lenCost ([] : List Message) +
        lenCost ⟨"user", "uu"⟩ ≤ 6 ∧
    ¬ sumCost lenCost
        (get_messages_from_history lenCost "ssss" [⟨"user", "aaaa"⟩, ⟨"user", "q"⟩] "uu" 6 []) ≤ 6 := by
  decide

/-- C6 (amended): when the new user content alone already exceeds
`max_tokens`, no history message is admitted and the builder still returns
(no error) exactly system, few-shots, new user content. -/
theorem C6_theorem (cost : Message → Nat) (system_prompt : String)
    (history : List Message) (user_content : String) (max_tokens : Nat)
    (few_shots : List Message)
    (h : cost ⟨"user", user_content⟩ > max_tokens) :
    get_messages_from_history cost system_prompt history user_content max_tokens few_shots =
      ⟨"system", system_prompt⟩ :: (few_shots ++ [⟨"user", user_content⟩]) := by
  rw [gmfh_shape]
  rw [includedHistory, takenHistory_nil_of_gt _ _ _ _ h]
  simp

/-- Witness for C6_theorem at a concrete input. -/
theorem C6_witness :
    lenCost ⟨"user", "uuuu"⟩ > 3 ∧
    get_messages_from_history lenCost "s" [⟨"user", "a"⟩, ⟨"user", "q"⟩] "uuuu" 3 [] =
      [⟨"system", "s"⟩, ⟨"user", "uuuu"⟩] :=
  ⟨by decide, C6_theorem lenCost "s" [⟨"user", "a"⟩, ⟨"user", "q"⟩] "uuuu" 3 [] (by decide)⟩

/-- C6 as stated is false: system (4) + few-shots (0) + new user content
(1) exceeds the budget 3, yet a history message is still added, because
only the new user content is counted when admitting history. -/
theorem C6_counterexample :
    lenCost ⟨"system", "ssss"⟩ + sumCost lenCost ([] : List Message) +
        lenCost ⟨"user", "u"⟩ > 3 ∧
    get_messages_from_history lenCost "ssss" [⟨"user", "a"⟩, ⟨"user", "q"⟩] "u" 3 [] =
      [⟨"system", "ssss"⟩, ⟨"user", "a"⟩, ⟨"user", "u"⟩] := by
  decide

/-- C7 (amended): the history included in the built prompt is a contiguous
most-recent suffix of the input history minus its final element (that final
element is always omitted, its content being resent as the new user
content), and it appears in original chronological order between the
few-shot examples and the new user content. -/
theorem C7_theorem (cost : Message → Nat) (system_prompt : String)
    (history : List Message) (user_content : String) (max_tokens : Nat)
    (few_shots : List Message) :
    ∃ included dropped : List Message,
      get_messages_from_history cost system_prompt history user_content max_tokens few_shots =
        ⟨"system", system_prompt⟩ :: (few_shots ++ (included ++ [⟨"user", user_content⟩])) ∧
      dropped ++ included = history.dropLast := by
  obtain ⟨k, hk⟩ := takenHistory_take_form cost max_tokens history.dropLast.reverse
    (cost ⟨"user", user_content⟩)
  refine ⟨includedHistory cost max_tokens history (cost ⟨"user", user_content⟩),
    (history.dropLast.reverse.drop k).reverse,
    gmfh_shape cost system_prompt history user_content max_tokens few_shots, ?_⟩
  rw [includedHistory, hk, ← List.reverse_append, List.take_append_drop,
    List.reverse_reverse]

/-- C7 as stated is false: with input history [a, b] and an ample budget,
the built prompt keeps the older message a but drops the newer b (its
content travels separately as the new user content), so the included
history is not a suffix of the input history. -/
theorem C7_counterexample :
    get_messages_from_history lenCost "s" [⟨"user", "a"⟩, ⟨"user", "b"⟩] "u" 100 [] =
      [⟨"system", "s"⟩, ⟨"user", "a"⟩, ⟨"user", "u"⟩] ∧
    (⟨"user", "b"⟩ : Message) ∈ [(⟨"user", "a"⟩ : Message), ⟨"user", "b"⟩] ∧
    (⟨"user", "b"⟩ : Message) ∉
      get_messages_from_history lenCost "s" [⟨"user", "a"⟩, ⟨"user", "b"⟩] "u" 100 [] := by
  decide

/-! ## Helper lemmas: streaming reassembler over the target stream -/

set_option maxHeartbeats 2000000 in
theorem streamStep_target : ∀ n < 24, ∀ len < 24,
    (n + len ≤ 23 ∧ n ≠ 12 ∧ n + len ≠ 12 ∧
      (decide (n < 13) || !containsLtLt ((target.drop n).take len) ||
        beginsWithLtLt ((target.drop n).take len)) = true) →
    streamStep true (stateAt n) ((target.drop n).take len) = stateAt (n + len) := by
  decide

theorem streamRun_target : ∀ (frags : List (List Char)) (n : Nat),
    n ≤ 23 → n ≠ 12 → goodFragsB n frags = true →
    frags.flatten = target.drop n →
    frags.foldl (streamStep true) (stateAt n) = stateAt 23 := by
  intro frags
  induction frags with
  | nil =>
      intro n hn h12 _ hj
      have hd : target.drop n = [] := by simpa using hj.symm
      have hlen : target.length ≤ n := List.drop_eq_nil_iff.mp hd
      have ht : target.length = 23 := by decide
      have : n = 23 := by omega
      subst this
      simp
  | cons f rest ih =>
      intro n hn h12 hg hj
      simp only [goodFragsB, Bool.and_eq_true] at hg
      obtain ⟨⟨h1, h2⟩, h3⟩ := hg
      simp only [List.flatten_cons] at hj
      have ht : target.length = 23 := by decide
      have hlenf : n + f.length ≤ 23 := by
        have := congrArg List.length hj
        simp only [List.length_append, List.length_drop, ht] at this
        omega
      have hf : f = (target.drop n).take f.length := by
        rw [← hj, List.take_left]
      have hr : rest.flatten = target.drop (n + f.length) := by
        have hdrop := congrArg (List.drop f.length) hj
        rw [List.drop_left] at hdrop
        rw [hdrop, List.drop_drop]
      have h1' : n + f.length ≠ 12 := by simpa using h1
      have step := streamStep_target n (by omega) f.length (by omega)
        ⟨hlenf, h12, h1', by rw [← hf]; exact h2⟩
      rw [List.foldl_cons, hf, step]
      exact ih (n + f.length) hlenf h1' h3 hr

/-- C2 (amended): for every fragmentation of `"answer text<<Q1>><<Q2>>"`
(suggest_followup_questions enabled) in which (a) no fragment boundary
falls between the two characters of the first `<<` marker and (b) every
fragment beginning after the first marker that contains `<<` starts with
`<<`, the reassembler forwards exactly `"answer text"` as visible content
and the final event's follow-up list is `["Q1", "Q2"]`. -/
theorem C2_theorem (frags : List (List Char))
    (hjoin : frags.flatten = target)
    (hgood : goodFragsB 0 frags = true) :
    (run_with_streaming true frags).visible = "answer text".data ∧
    finalFollowups (run_with_streaming true frags) = some ["Q1".data, "Q2".data] := by
  have h := streamRun_target frags 0 (by omega) (by omega) hgood (by simpa using hjoin)
  have h0 : run_with_streaming true frags = stateAt 23 := by
    have e : (⟨false, [], []⟩ : StreamState) = stateAt 0 := by decide
    rw [run_with_streaming, e, h]
  rw [h0]
  exact ⟨by decide, by decide⟩

/-- Witness for C2_theorem at a concrete two-fragment split. -/
theorem C2_witness :
    (["answer text<<Q1>>".data, "<<Q2>>".data] : List (List Char)).flatten = target ∧
    goodFragsB 0 ["answer text<<Q1>>".data, "<<Q2>>".data] = true ∧
    ((run_with_streaming true ["answer text<<Q1>>".data, "<<Q2>>".data]).visible =
        "answer text".data ∧
      finalFollowups (run_with_streaming true ["answer text<<Q1>>".data, "<<Q2>>".data]) =
        some ["Q1".data, "Q2".data]) :=
  ⟨by decide, by decide,
    C2_theorem ["answer text<<Q1>>".data, "<<Q2>>".data] (by decide) (by decide)⟩

/-- C2 as stated is false: splitting `"answer text<<Q1>><<Q2>>"` inside the
first marker (`"answer text<"` / `"<Q1>><<Q2>>"`) makes the reassembler
forward `"answer text<<Q1>>"` and report only `["Q2"]`: the per-fragment
`"<<" in content` test cannot see a marker split across fragments, and the
second fragment's pre-marker text is forwarded although it belongs to the
follow-up block. -/
theorem C2_counterexample :
    (["answer text<".data, "<Q1>><<Q2>>".data] : List (List Char)).flatten = target ∧
    (run_with_streaming true ["answer text<".data, "<Q1>><<Q2>>".data]).visible ≠
      "answer text".data ∧
    finalFollowups (run_with_streaming true ["answer text<".data, "<Q1>><<Q2>>".data]) ≠
      some ["Q1".data, "Q2".data] := by
  decide

/-- C3 (amended): once the follow-up state has been entered, a later
fragment without `<<` is appended to the buffer in full and nothing of it
is forwarded; but a later fragment that does contain `<<` has the portion
before its first marker forwarded to the caller as visible content, and
only the portion from the marker onward is appended to the buffer. -/
theorem C3_theorem : ∀ (frags : List (List Char)) (st : StreamState),
    st.started = true →
    frags.foldl (streamStep true) st =
      ⟨true,
        st.buffer ++ (frags.map (fun f => if containsLtLt f then fromLtLt f else f)).flatten,
        st.visible ++ (frags.map (fun f => if containsLtLt f then beforeLtLt f else [])).flatten⟩ := by
  intro frags
  induction frags with
  | nil =>
      intro st h
      obtain ⟨s, b, v⟩ := st
      simp only at h
      subst h
      simp
  | cons f rest ih =>
      intro st h
      rw [List.foldl_cons]
      by_cases hc : containsLtLt f = true
      · rw [show streamStep true st f =
            ⟨true, st.buffer ++ fromLtLt f, st.visible ++ beforeLtLt f⟩ from by
          simp [streamStep, hc]]
        rw [ih ⟨true, st.buffer ++ fromLtLt f, st.visible ++ beforeLtLt f⟩ rfl]
        simp [hc]
      · rw [show streamStep true st f = ⟨true, st.buffer ++ f, st.visible⟩ from by
          simp [streamStep, hc, h]]
        rw [ih ⟨true, st.buffer ++ f, st.visible⟩ rfl]
        simp [hc]

/-- Witness for C3_theorem: in the follow-up state with buffer `"<<A>>"`,
the fragment `"x<<B>>"` leaks `"x"` to the visible output and appends only
`"<<B>>"` to the buffer. -/
theorem C3_witness :
    ([("x<<B>>".data)] : List (List Char)).foldl (streamStep true)
        ⟨true, "<<A>>".data, "ans".data⟩ =
      ⟨true, "<<A>><<B>>".data, "ansx".data⟩ := by
  rw [C3_theorem [("x<<B>>".data)] ⟨true, "<<A>>".data, "ans".data⟩ rfl]
  decide

/-- C3 as stated is false: after `"<<A>>"` has entered the follow-up
state, the later fragment `"x<<B>>"` is neither withheld from the caller
(`"x"` is forwarded as visible content) nor appended to the buffer in
full. -/
theorem C3_counterexample :
    (run_with_streaming true ["<<A>>".data]).started = true ∧
    (run_with_streaming true ["<<A>>".data, "x<<B>>".data]).visible ≠
      (run_with_streaming true ["<<A>>".data]).visible ∧
    (run_with_streaming true ["<<A>>".data, "x<<B>>".data]).buffer ≠
      (run_with_streaming true ["<<A>>".data]).buffer ++ "x<<B>>".data := by
  decide

/-! ## Helper lemmas: search-call composition -/

theorem composeSearchCall_query_text {α : Type} (embed : String → α) (o : Overrides)
    (f : Option String) (q : String) :
    (composeSearchCall embed o f q).query_text = if hasText o then some q else none := by
  simp only [composeSearchCall]
  split <;> rfl

theorem composeSearchCall_vector {α : Type} (embed : String → α) (o : Overrides)
    (f : Option String) (q : String) :
    (composeSearchCall embed o f q).vector =
      if hasVector o then some (embed q) else none := by
  simp only [composeSearchCall]
  split <;> rfl

theorem composeSearchCall_semantic {α : Type} (embed : String → α) (o : Overrides)
    (f : Option String) (q : String) :
    (composeSearchCall embed o f q).semantic_query_type =
      (o.semantic_ranker && hasText o) := by
  simp only [composeSearchCall]
  split <;> simp_all

theorem composeSearchCall_caption {α : Type} (embed : String → α) (o : Overrides)
    (f : Option String) (q : String) :
    (composeSearchCall embed o f q).query_caption =
      if o.semantic_ranker && hasText o then
        (if o.semantic_captions && hasText o then some "extractive|highlight-false" else none)
      else none := by
  simp only [composeSearchCall]
  split <;> simp_all

/-- C4: the retrieval-mode matrix of the search call — mode `"text"` never
attaches a vector, mode `"vectors"` never attaches query text, mode
`"hybrid"` or an unset mode attaches both, and the semantic query type and
extractive captions are requested only while text search is active. -/
theorem C4_theorem {α : Type} (embed : String → α) (o : Overrides)
    (f : Option String) (q : String) :
    (o.retrieval_mode = some "text" → (composeSearchCall embed o f q).vector = none) ∧
    (o.retrieval_mode = some "vectors" → (composeSearchCall embed o f q).query_text = none) ∧
    ((o.retrieval_mode = some "hybrid" ∨ o.retrieval_mode = none) →
      (composeSearchCall embed o f q).query_text = some q ∧
      (composeSearchCall embed o f q).vector = some (embed q)) ∧
    ((composeSearchCall embed o f q).semantic_query_type = true →
      hasText o = true ∧ o.semantic_ranker = true) ∧
    ((composeSearchCall embed o f q).query_caption.isSome = true →
      hasText o = true ∧ o.semantic_captions = true) := by
  refine ⟨?_, ?_, ?_, ?_, ?_⟩
  · intro h
    have hv : hasVector o = false := by simp only [hasVector, h]; decide
    rw [composeSearchCall_vector, hv]
    rfl
  · intro h
    have ht : hasText o = false := by simp only [hasText, h]; decide
    rw [composeSearchCall_query_text, ht]
    rfl
  · intro h
    have ht : hasText o = true := by
      rcases h with h | h <;> simp only [hasText, h] <;> decide
    have hv : hasVector o = true := by
      rcases h with h | h <;> simp only [hasVector, h] <;> decide
    rw [composeSearchCall_query_text, composeSearchCall_vector, ht, hv]
    exact ⟨rfl, rfl⟩
  · rw [composeSearchCall_semantic]
    intro h
    rw [Bool.and_eq_true] at h
    exact ⟨h.2, h.1⟩
  · rw [composeSearchCall_caption]
    intro h
    by_cases h1 : (o.semantic_ranker && hasText o) = true
    · rw [if_pos h1] at h
      by_cases h2 : (o.semantic_captions && hasText o) = true
      · rw [Bool.and_eq_true] at h2
        exact ⟨h2.2, h2.1⟩
      · rw [if_neg h2] at h
        simp at h
    · rw [if_neg h1] at h
      simp at h

/-- Witness for C4_theorem: with retrieval_mode "text" no vector is
attached. -/
theorem C4_witness :
    (composeSearchCall (fun _ => (0 : Nat))
        ⟨some "text", false, false, none, none, none, false⟩ none "q").vector = none :=
  (C4_theorem (fun _ => (0 : Nat))
    ⟨some "text", false, false, none, none, none, false⟩ none "q").1 rfl

/-- C5: the query-rewrite fallback of `get_search_query` — a
`search_sources` function call whose `search_query` is missing or the
sentinel "0" yields the original query; one with a non-sentinel value
yields that value; with no function call, non-empty plain content that
strips to the sentinel yields the original query, and any other non-empty
plain content is returned as the rewritten query. -/
theorem C5_theorem (msg : ResponseMessage) (Q : String) :
    (∀ fc, msg.function_call = some fc → fc.name = "search_sources" →
      (fc.search_query = none ∨ fc.search_query = some "0") →
      get_search_query msg Q = Q) ∧
    (∀ fc s, msg.function_call = some fc → fc.name = "search_sources" →
      fc.search_query = some s → s ≠ "0" → get_search_query msg Q = s) ∧
    (∀ t, msg.function_call = none → msg.content = some t → t ≠ "" →
      pyStrip t = "0" → get_search_query msg Q = Q) ∧
    (∀ t, msg.function_call = none → msg.content = some t → t ≠ "" →
      pyStrip t ≠ "0" → get_search_query msg Q = t) := by
  refine ⟨?_, ?_, ?_, ?_⟩
  · intro fc hfc hname hsq
    rcases hsq with h | h <;>
      simp [get_search_query, hfc, hname, h, NO_RESPONSE]
  · intro fc s hfc hname hsq hs
    simp [get_search_query, hfc, hname, hsq, NO_RESPONSE, hs]
  · intro t hfc hct ht hstrip
    simp [get_search_query, hfc, hct, ht, hstrip, NO_RESPONSE]
  · intro t hfc hct ht hstrip
    simp [get_search_query, hfc, hct, ht, hstrip, NO_RESPONSE]

/-- Witness for C5_theorem: a `search_sources` call carrying the sentinel
falls back to the original query. -/
theorem C5_witness :
    get_search_query ⟨some ⟨"search_sources", some "0"⟩, none⟩ "原始问题" = "原始问题" :=
  (C5_theorem ⟨some ⟨"search_sources", some "0"⟩, none⟩ "原始问题").1
    ⟨"search_sources", some "0"⟩ rfl rfl (Or.inr rfl)

/-- C8 (amended): the system-prompt override protocol as implemented — an
absent override formats the default template with an empty injected slot; a
`>>>`-prefixed override splices the remainder plus a trailing newline into
the injected slot; any other override is a full replacement with only the
follow-up slot substituted. -/
theorem C8_theorem (o : Option String) (f : String) :
    get_system_prompt o f = amendedSystemPromptC8 o f := by
  cases o <;> rfl

set_option maxRecDepth 4096 in
/-- C8 as stated is false: for the override `">>>x"` the code splices
`"x" ++ "\n"`, not `"x"`, into the injected-prompt slot, so the produced
prompt differs from the claim's reading by a newline. -/
theorem C8_counterexample :
    get_system_prompt (some ">>>x") "F" ≠ claimedSystemPromptC8 (some ">>>x") "F" := by
  decide

/-- C9: a request whose newest message content is not a string fails with
an error before any external call — `RetrieveThenReadApproach.run` raises
its explicit `ValueError`, and the chat approach's step 1 fails while
building the query-rewrite prompt; in both cases the emitted
external-call trace is empty. -/
theorem C9_theorem (o : Overrides) (messages : List ReqMessage)
    (h : contentIsString (messages.getLastD ⟨"user", .text ""⟩).content = false) :
    runRetrieveThenRead o messages =
      ([], .error "The most recent message content must be a string.") ∧
    runUntilFinalCallStep1 messages =
      ([], .error "TypeError: can only concatenate str to str") := by
  cases hc : (messages.getLastD ⟨"user", .text ""⟩).content with
  | text s => rw [hc] at h; simp [contentIsString] at h
  | parts n =>
      constructor
      · unfold runRetrieveThenRead
        rw [hc]
      · unfold runUntilFinalCallStep1
        rw [hc]

/-- Witness for C9_theorem at a concrete non-string newest message. -/
theorem C9_witness :
    runRetrieveThenRead ⟨none, false, false, none, none, none, false⟩
        [⟨"user", .parts 2⟩] =
      ([], .error "The most recent message content must be a string.") ∧
    runUntilFinalCallStep1 [⟨"user", .parts 2⟩] =
      ([], .error "TypeError: can only concatenate str to str") :=
  C9_theorem ⟨none, false, false, none, none, none, false⟩ [⟨"user", .parts 2⟩] rfl

/-- C10: the iterative strategy's final completion call replaces any falsy
temperature override (absent, None, or 0.0) with 0.7, so a supplied 0.0 is
not honoured, while the direct strategy passes a supplied value through and
defaults to 0.3 only when the key is absent. -/
theorem C10_theorem (o : Overrides) :
    ((o.temperature = none ∨ o.temperature = some 0) → finalAnswerTemperature o = 0.7) ∧
    (∀ t, o.temperature = some t → t ≠ 0 → finalAnswerTemperature o = t) ∧
    (∀ t, o.temperature = some t → retrieveThenReadTemperature o = t) ∧
    (o.temperature = none → retrieveThenReadTemperature o = 0.3) := by
  refine ⟨?_, ?_, ?_, ?_⟩
  · intro h
    rcases h with h | h <;> simp [finalAnswerTemperature, h]
  · intro t ht h
    simp [finalAnswerTemperature, ht, h]
  · intro t ht
    simp [retrieveThenReadTemperature, ht]
  · intro h
    simp [retrieveThenReadTemperature, h]

/-- Witness for C10_theorem: a supplied temperature of 0 becomes 0.7 in the
iterative strategy but stays 0 in the direct strategy. -/
theorem C10_witness :
    finalAnswerTemperature ⟨none, false, false, none, some 0, none, false⟩ = 0.7 ∧
    retrieveThenReadTemperature ⟨none, false, false, none, some 0, none, false⟩ = 0 :=
  ⟨(C10_theorem ⟨none, false, false, none, some 0, none, false⟩).1 (Or.inr rfl),
    (C10_theorem ⟨none, false, false, none, some 0, none, false⟩).2.2.1 0 rfl⟩
